import Mathlib

/-!
Verification of the crypto-analytics streaming pipeline
(`src/ingestion/producers/kinesis_producer.py` and
`src/lambda/stream_processor/handler.py`) against its specification.

Modelling conventions, used throughout:
* Python JSON values are embedded as `JVal`; numeric strings are kept as
  their numeric value (`jintstr` for strings holding an integer literal,
  `jdecstr` for strings holding a non-integer numeric literal), since the
  Python code only ever observes them through `float(...)` / `int(...)` /
  `.lower()`.
* Python floats are embedded as exact rationals `ℚ`; epoch timestamps as `ℤ`
  milliseconds.
* A Python function that can raise an exception that its callers in the
  source do not catch is embedded with an `Option` result, `none` meaning
  an uncaught exception escapes.
* Wall-clock reads (`time.time()`, `datetime.now(...)`) become an explicit
  `now` parameter.
* Human-readable error strings built by the validator are abstracted to the
  constructors of `VErr` (the claims never inspect the message text).
-/

namespace CryptoSpec

/-- Embedded JSON/Python values as seen by the pipeline. A string holding a
numeric literal is represented by its value (`jintstr`/`jdecstr`) because the
code only observes such strings via `float`, `int`, `.lower()` and
formatting. `jnull` is Python `None`. -/
inductive JVal where
  | jnum (q : ℚ)
  | jintstr (n : ℤ)
  | jdecstr (q : ℚ)
  | jstr (s : String)
  | jnull
  deriving DecidableEq

/-- Kinds of exception raised by the Python numeric conversions. -/
inductive PyErr where
  | valueError
  | typeError
  deriving DecidableEq

/-- Truncation of a rational toward zero: the behaviour of Python `int()`
applied to a float. -/
def ratTrunc (q : ℚ) : ℤ :=
  Int.tdiv q.num (q.den : ℤ)

/-- Python `float(v)`: succeeds on numbers and numeric strings, raises
`ValueError` on non-numeric strings and `TypeError` on `None`. -/
def pyFloatE : JVal → Except PyErr ℚ
  | .jnum q => .ok q
  | .jintstr n => .ok (n : ℚ)
  | .jdecstr q => .ok q
  | .jstr _ => .error .valueError
  | .jnull => .error .typeError

/-- Python `int(v)`: truncates floats toward zero, parses integer-literal
strings, raises `ValueError` on other strings (including decimal literals
such as "3.5") and `TypeError` on `None`. -/
def pyIntE : JVal → Except PyErr ℤ
  | .jnum q => .ok (ratTrunc q)
  | .jintstr n => .ok n
  | .jdecstr _ => .error .valueError
  | .jstr _ => .error .valueError
  | .jnull => .error .typeError

/-- ASCII lowering of one character (the exchange names and symbols the
code lowers are ASCII). -/
def lowerChar (c : Char) : Char :=
  if 'A' ≤ c ∧ c ≤ 'Z' then Char.ofNat (c.toNat + 32) else c

/-- ASCII lowering of a string: Python `s.lower()` on ASCII input. -/
def strLower (s : String) : String :=
  ⟨s.data.map lowerChar⟩

/-- Python `v.lower()`: defined on strings only; on numbers and `None` it
raises `AttributeError`, modelled by `none`. A numeric string is unchanged
by lowering and is rendered by its numeral. -/
def pyLower : JVal → Option String
  | .jstr s => some (strLower s)
  | .jintstr n => some (toString n)
  | .jdecstr q => some (toString q)
  | .jnum _ => none
  | .jnull => none

/-- Python `str(v)` / f-string rendering. For non-integral `jnum`/`jdecstr`
values the textual form of a Lean rational approximates the Python float
repr; no theorem below depends on that case. -/
def pyStr : JVal → String
  | .jstr s => s
  | .jintstr n => toString n
  | .jdecstr q => toString q
  | .jnum q => if q.den = 1 then toString q.num else toString q
  | .jnull => "None"

/-- A market-data record as received by the stream processor: the JSON
object fields the code reads, each possibly absent. -/
structure Rec where
  exchange : Option JVal := none
  symbol : Option JVal := none
  timestamp : Option JVal := none
  price : Option JVal := none
  volume : Option JVal := none
  bid : Option JVal := none
  ask : Option JVal := none
  deriving DecidableEq

/-! ## DataQualityValidator (`handler.py` lines 51-121) -/

/-- Configuration of `DataQualityValidator.__init__`, with the default
environment values. `timestamp_tolerance` is in seconds. -/
structure VConfig where
  min_price : ℚ := 1 / 100
  max_price : ℚ := 1000000
  min_volume : ℚ := 0
  timestamp_tolerance : ℤ := 300
  quality_threshold : ℚ := 4 / 5
  deriving DecidableEq

/-- Default validator configuration (all environment variables unset). -/
def defaultVConfig : VConfig := {}

/-- Abstracted validation error messages, one constructor per
`errors.append(...)` site of `validate_record`. -/
inductive VErr where
  | missingField (f : String)
  | priceOutOfRange
  | invalidPriceFormat
  | volumeBelowMin
  | invalidVolumeFormat
  | timestampTooOld
  | invalidTimestampFormat
  | invalidExchange
  deriving DecidableEq

/-- The five required fields of `validate_record`, in source order, paired
with their value in the record. -/
def requiredFieldsOf (r : Rec) : List (String × Option JVal) :=
  [("exchange", r.exchange), ("symbol", r.symbol), ("timestamp", r.timestamp),
   ("price", r.price), ("volume", r.volume)]

/-- Exchanges accepted by `validate_record` (`valid_exchanges`). -/
def validExchanges : List String := ["binance", "coinbase", "kraken"]

/-- One iteration of the required-field loop of `validate_record`: a missing
field appends an error and subtracts 0.2 from the score. -/
def missingFieldStep (se : ℚ × List VErr) (fv : String × Option JVal) : ℚ × List VErr :=
  if fv.2.isNone then (se.1 - 0.2, se.2 ++ [VErr.missingField fv.1]) else se

/-- The price block of `validate_record` (lines 82-90), acting on the
accumulated (score, errors) pair. -/
def priceBlock (cfg : VConfig) (r : Rec) (se : ℚ × List VErr) : ℚ × List VErr :=
  match r.price with
  | none => se
  | some v =>
    match pyFloatE v with
    | .ok price =>
      if cfg.min_price ≤ price ∧ price ≤ cfg.max_price then se
      else (se.1 - 0.3, se.2 ++ [VErr.priceOutOfRange])
    | .error _ => (se.1 - 0.3, se.2 ++ [VErr.invalidPriceFormat])

/-- The volume block of `validate_record` (lines 93-101). -/
def volumeBlock (cfg : VConfig) (r : Rec) (se : ℚ × List VErr) : ℚ × List VErr :=
  match r.volume with
  | none => se
  | some v =>
    match pyFloatE v with
    | .ok volume =>
      if volume < cfg.min_volume then (se.1 - 0.2, se.2 ++ [VErr.volumeBelowMin])
      else se
    | .error _ => (se.1 - 0.2, se.2 ++ [VErr.invalidVolumeFormat])

/-- The timestamp block of `validate_record` (lines 104-113). -/
def timestampBlock (cfg : VConfig) (now : ℤ) (r : Rec) (se : ℚ × List VErr) : ℚ × List VErr :=
  match r.timestamp with
  | none => se
  | some v =>
    match pyIntE v with
    | .ok t =>
      if cfg.timestamp_tolerance * 1000 < |now - t| then
        (se.1 - 0.1, se.2 ++ [VErr.timestampTooOld])
      else se
    | .error _ => (se.1 - 0.1, se.2 ++ [VErr.invalidTimestampFormat])

/-- The (score, errors) pair accumulated by `validate_record` before its
exchange allow-list check: the required-field loop, then the price, volume
and timestamp blocks, in source order. -/
def vPreExchange (cfg : VConfig) (now : ℤ) (r : Rec) : ℚ × List VErr :=
  timestampBlock cfg now r
    (volumeBlock cfg r
      (priceBlock cfg r ((requiredFieldsOf r).foldl missingFieldStep (1, []))))

/-- `DataQualityValidator.validate_record` (`handler.py` lines 62-121),
with the wall-clock read `time.time() * 1000` passed in as `now` (epoch
milliseconds): `vPreExchange`, then the exchange allow-list check, then the
`return` line (note `accepted` compares the un-floored score against the
threshold while the returned score is floored at 0). Returns `none` when
the uncaught `AttributeError` escapes: this happens exactly when the
`exchange` field is present but is not a string, since
`record['exchange'].lower()` is evaluated outside any `try`. All other
conversion errors are caught by the source. -/
def validateRecord (cfg : VConfig) (now : ℤ) (r : Rec) : Option (Bool × ℚ × List VErr) :=
  let se3 : ℚ × List VErr := vPreExchange cfg now r
  match r.exchange with
  | none => some (decide (cfg.quality_threshold ≤ se3.1), max 0 se3.1, se3.2)
  | some v =>
    (pyLower v).map fun s =>
      let se4 : ℚ × List VErr :=
        if s ∈ validExchanges then se3
        else (se3.1 - 0.2, se3.2 ++ [VErr.invalidExchange])
      (decide (cfg.quality_threshold ≤ se4.1), max 0 se4.1, se4.2)

/-- State-passing form of `validate_record`: the call also yields the
validator configuration and the record after the call. The method body only
reads `self.*` and `record`, so both come back unchanged. -/
def validateRecordRun (cfg : VConfig) (now : ℤ) (r : Rec) :
    Option (Bool × ℚ × List VErr) × VConfig × Rec :=
  (validateRecord cfg now r, cfg, r)

/-! Additive decomposition of the validator score, used to state the
claims about it. -/

/-- Number of required fields absent from the record. -/
def missingCount (r : Rec) : ℕ :=
  ((requiredFieldsOf r).filter (fun fv => fv.2.isNone)).length

/-- Score penalty of the price block of `validate_record`. -/
def pricePenalty (cfg : VConfig) (r : Rec) : ℚ :=
  match r.price with
  | none => 0
  | some v =>
    match pyFloatE v with
    | .ok price => if cfg.min_price ≤ price ∧ price ≤ cfg.max_price then 0 else 0.3
    | .error _ => 0.3

/-- Score penalty of the volume block of `validate_record`. -/
def volumePenalty (cfg : VConfig) (r : Rec) : ℚ :=
  match r.volume with
  | none => 0
  | some v =>
    match pyFloatE v with
    | .ok volume => if volume < cfg.min_volume then 0.2 else 0
    | .error _ => 0.2

/-- Score penalty of the timestamp block of `validate_record`. -/
def timestampPenalty (cfg : VConfig) (now : ℤ) (r : Rec) : ℚ :=
  match r.timestamp with
  | none => 0
  | some v =>
    match pyIntE v with
    | .ok t => if cfg.timestamp_tolerance * 1000 < |now - t| then 0.1 else 0
    | .error _ => 0.1

/-- Score penalty of the exchange allow-list block of `validate_record`,
for records on which that block does not raise. -/
def exchangePenalty (r : Rec) : ℚ :=
  match r.exchange with
  | none => 0
  | some v =>
    match pyLower v with
    | some s => if s ∈ validExchanges then 0 else 0.2
    | none => 0

/-- The raw (pre-floor) quality score of `validate_record` as an additive
combination of the independent penalties. -/
def rawScore (cfg : VConfig) (now : ℤ) (r : Rec) : ℚ :=
  1 - 0.2 * (missingCount r : ℚ) - pricePenalty cfg r - volumePenalty cfg r
    - timestampPenalty cfg now r - exchangePenalty r

/-- The `exchange` value admits `.lower()` (it is absent or string-like),
so `validate_record` returns instead of raising. -/
def exchangeLowerable (r : Rec) : Bool :=
  match r.exchange with
  | none => true
  | some v => (pyLower v).isSome

/-! ## DataEnricher (`handler.py` lines 124-191) -/

/-- The per-symbol price history map `self.price_history`, keyed like a
Python dict by the (arbitrary) value of the `symbol` field. -/
abbrev EState := List (JVal × List ℚ)

/-- Dictionary lookup in the price-history map. -/
def lookupHist : EState → JVal → Option (List ℚ)
  | [], _ => none
  | (k, h) :: rest, key => if k = key then some h else lookupHist rest key

/-- Dictionary update in the price-history map. -/
def insertHist : EState → JVal → List ℚ → EState
  | [], key, h => [(key, h)]
  | (k, hh) :: rest, key, h =>
    if k = key then (key, h) :: rest else (k, hh) :: insertHist rest key h

/-- Last `n` elements of a list: Python `l[-n:]`. -/
def lastN (n : ℕ) (l : List α) : List α :=
  l.drop (l.length - n)

/-- Maximum price-history length (`self.max_history_size`). -/
def maxHistorySize : ℕ := 100

/-- History update of `enrich_record`: append the new price, then drop the
oldest entry if the capacity is exceeded (`pop(0)`). -/
def histAppend (h : List ℚ) (p : ℚ) : List ℚ :=
  let h2 := h ++ [p]
  if maxHistorySize < h2.length then h2.tail else h2

/-- An enriched record: the incoming record plus the fields added by
`enrich_record`. The source stores `volatility = variance ** 0.5`; since
that square root is irrational in general, the embedding keeps the variance
itself in `volatility_sq`, and the theorems speak about `Real.sqrt` of it. -/
structure ERec where
  base : Rec
  processed_at : ℤ
  spread : Option ℚ := none
  spread_percentage : Option ℚ := none
  price_change : Option ℚ := none
  price_change_percentage : Option ℚ := none
  sma_5 : Option ℚ := none
  sma_10 : Option ℚ := none
  volatility_sq : Option ℚ := none

/-- `DataEnricher.enrich_record` (`handler.py` lines 132-191), over an
explicit history state; the wall-clock stamp is the `now` parameter.
Returns `none` when `float(record.get('price', 0))` raises (a present but
non-numeric price), the only conversion in the body outside a `try`. -/
def enrichRecord (now : ℤ) (st : EState) (r : Rec) : Option (ERec × EState) :=
  let spreadPair : Option ℚ × Option ℚ :=
    match r.bid, r.ask with
    | some bv, some av =>
      match pyFloatE bv, pyFloatE av with
      | .ok bid, .ok ask =>
        if 0 < bid ∧ 0 < ask then
          (some (ask - bid), some ((ask - bid) / bid * 100))
        else (none, none)
      | _, _ => (none, none)
    | _, _ => (none, none)
  let symbol := r.symbol.getD (JVal.jstr "unknown")
  match pyFloatE (r.price.getD (JVal.jnum 0)) with
  | .error _ => none
  | .ok price =>
    let hist := (lookupHist st symbol).getD []
    let changePair : Option ℚ × Option ℚ :=
      match hist.getLast? with
      | some prev =>
        if 0 < prev then
          (some (price - prev), some ((price - prev) / prev * 100))
        else (none, none)
      | none => (none, none)
    let hist2 := histAppend hist price
    some
      ({ base := r
         processed_at := now
         spread := spreadPair.1
         spread_percentage := spreadPair.2
         price_change := changePair.1
         price_change_percentage := changePair.2
         sma_5 := if 5 ≤ hist2.length then some ((lastN 5 hist2).sum / 5) else none
         sma_10 := if 10 ≤ hist2.length then some ((lastN 10 hist2).sum / 10) else none
         volatility_sq :=
           if 10 ≤ hist2.length then
             let prices := lastN 10 hist2
             let meanPrice := prices.sum / (prices.length : ℚ)
             some ((prices.map (fun q => (q - meanPrice) ^ 2)).sum / (prices.length : ℚ))
           else none },
       insertHist st symbol hist2)

/-- A minimal record carrying a symbol and a numeric price, as fed to the
enricher in the claims about it. -/
def tradeRec (sym : String) (p : ℚ) : Rec :=
  { symbol := some (JVal.jstr sym), price := some (JVal.jnum p) }

/-- Run a sequence of `enrich_record` calls for one symbol, one call per
price, returning the output of each call (in order) and the final history
state. -/
def enrichSteps (now : ℤ) (sym : String) (st : EState) :
    List ℚ → List (Option ERec) × EState
  | [] => ([], st)
  | p :: rest =>
    match enrichRecord now st (tradeRec sym p) with
    | some (e, st2) =>
      let step := enrichSteps now sym st2 rest
      (some e :: step.1, step.2)
    | none =>
      let step := enrichSteps now sym st rest
      (none :: step.1, step.2)

/-! ## S3Writer partition keys (`handler.py` lines 240-264) -/

/-- Era-based conversion of days since the Unix epoch to a UTC civil date
(year, month, day); the calendar arithmetic behind Python
`datetime.fromtimestamp(..., tz=timezone.utc)`. -/
def civilFromDays (z0 : ℤ) : ℤ × ℤ × ℤ :=
  let z := z0 + 719468
  let era := Int.fdiv z 146097
  let doe := z - era * 146097
  let yoe := Int.fdiv (doe - Int.fdiv doe 1460 + Int.fdiv doe 36524 - Int.fdiv doe 146096) 365
  let y := yoe + era * 400
  let doy := doe - (365 * yoe + Int.fdiv yoe 4 - Int.fdiv yoe 100)
  let mp := Int.fdiv (5 * doy + 2) 153
  let d := doy - Int.fdiv (153 * mp + 2) 5 + 1
  let m := mp + (if mp < 10 then 3 else -9)
  (y + (if m ≤ 2 then 1 else 0), m, d)

/-- UTC (year, month, day, hour) of an epoch-second instant. -/
def civilHour (s : ℤ) : ℤ × ℤ × ℤ × ℤ :=
  let ymd := civilFromDays (Int.fdiv s 86400)
  (ymd.1, ymd.2.1, ymd.2.2, Int.fdiv (Int.fmod s 86400) 3600)

/-- Smallest epoch second representable by `datetime` (0001-01-01T00:00:00). -/
def minDatetimeSec : ℤ := -62135596800

/-- Largest epoch second whose instant `datetime` still represents
(9999-12-31T23:59:59.999999 truncated to seconds). -/
def maxDatetimeSec : ℤ := 253402300799

/-- Zero-padded two-digit rendering: Python format `{:02d}` for the
month/day/hour values (always non-negative). -/
def pad2 (n : ℤ) : String :=
  if n < 10 then "0" ++ toString n else toString n

/-- Render the `exchange/symbol/year=Y/month=MM/day=DD/hour=HH` key from an
epoch-second instant. -/
def partitionOf (exchange symbol : String) (s : ℤ) : String :=
  let c := civilHour s
  let year := toString c.1
  let month := pad2 c.2.1
  let day := pad2 c.2.2.1
  let hour := pad2 c.2.2.2
  s!"{exchange}/{symbol}/year={year}/month={month}/day={day}/hour={hour}"

/-- `S3Writer._get_partition_key` (`handler.py` lines 240-264). A missing
timestamp defaults to the integer `0` before conversion. `int(...)` errors
(`ValueError`/`TypeError`) are caught, as is the `ValueError` that
`datetime.fromtimestamp` raises when the instant falls outside calendar
years 1..9999; both take the current-time fallback, modelled by the
epoch-second parameter `nowSec` (`datetime.now(timezone.utc)`). `t / 1000`
is Python float division; its civil fields are those of the floor of the
real quotient, `fdiv t 1000`. -/
def getPartitionKey (nowSec : ℤ) (r : Rec) : String :=
  let exchange := pyStr (r.exchange.getD (JVal.jstr "unknown"))
  let symbol := pyStr (r.symbol.getD (JVal.jstr "unknown"))
  match pyIntE (r.timestamp.getD (JVal.jnum 0)) with
  | .ok t =>
    let s := Int.fdiv t 1000
    if minDatetimeSec ≤ s ∧ s ≤ maxDatetimeSec then partitionOf exchange symbol s
    else partitionOf exchange symbol nowSec
  | .error _ => partitionOf exchange symbol nowSec

/-! ## KinesisProducer (`kinesis_producer.py` lines 93-226) -/

/-- A buffered Kinesis record: serialized `Data` and `PartitionKey`. -/
structure KRecord where
  data : String
  partitionKey : String
  deriving DecidableEq

/-- Mutable state of `KinesisProducer`. Counters are integers because
`total_records_sent += len(buffer) - failed_count` is exact Python integer
arithmetic. -/
structure PState where
  records_buffer : List KRecord := []
  total_records_sent : ℤ := 0
  failed_records : ℤ := 0
  deriving DecidableEq

/-- Result of one `client.put_records` call: a response carrying
`FailedRecordCount`, or a raised `ClientError`. -/
inductive PutOutcome where
  | ok (failedCount : ℕ)
  | err
  deriving DecidableEq

/-- The retry loop of `KinesisProducer._flush_buffer` (lines 169-210).
`outcome i` is what the `put_records` call of attempt `i` (0-based) does;
`remaining` is the number of loop iterations left, so the current attempt
index is `maxRetries - remaining`. Returns the flush result, the producer
state after the loop, the list of backoff sleeps (seconds) performed, and
the number of `put_records` attempts made. -/
def flushLoop (outcome : ℕ → PutOutcome) (maxRetries : ℕ) (st : PState) :
    ℕ → Bool × PState × List ℕ × ℕ
  | 0 => (false, st, [], 0)
  | remaining + 1 =>
    let attempt := maxRetries - (remaining + 1)
    match outcome attempt with
    | .ok failedCount =>
      (true,
       { records_buffer := []
         total_records_sent :=
           st.total_records_sent + (st.records_buffer.length : ℤ) - (failedCount : ℤ)
         failed_records :=
           if 0 < failedCount then st.failed_records + (failedCount : ℤ)
           else st.failed_records },
       [], 1)
    | .err =>
      if remaining = 0 then
        (false,
         { records_buffer := []
           total_records_sent := st.total_records_sent
           failed_records := st.failed_records + (st.records_buffer.length : ℤ) },
         [], 1)
      else
        let rest := flushLoop outcome maxRetries st remaining
        (rest.1, rest.2.1, 2 ^ attempt :: rest.2.2.1, rest.2.2.2 + 1)

/-- `KinesisProducer._flush_buffer` / `flush` (lines 164-214): an empty
buffer returns `True` immediately, otherwise the retry loop runs for up to
`maxRetries` attempts. -/
def flushBuffer (outcome : ℕ → PutOutcome) (maxRetries : ℕ) (st : PState) :
    Bool × PState × List ℕ × ℕ :=
  if st.records_buffer.isEmpty then (true, st, [], 0)
  else flushLoop outcome maxRetries st maxRetries

/-! ## MarketDataStreamer (`kinesis_producer.py` lines 394-512) -/

/-- Outcome of one iteration of the `while` loop of `stream_exchange`:
the connection attempt fails outright, or it succeeds, delivers some number
of records and then the message loop raises, or it succeeds, delivers some
records and the message iterator ends without an exception (graceful close,
or the running flag observed as cleared). -/
inductive ConnOutcome where
  | connectFail
  | streamThenError (delivered : ℕ)
  | streamClean (delivered : ℕ)
  deriving DecidableEq

/-- `max_retries` of `stream_exchange` (line 425). -/
def maxStreamRetries : ℕ := 10

/-- The reconnection bookkeeping of `MarketDataStreamer.stream_exchange`
(lines 418-458) over a sequence of connection outcomes, carrying the
`retry_count` across iterations. For each iteration that raises it records
`(retry_count after increment, backoff delay slept)`; a final failed
iteration (retry count reaching the maximum) sleeps nothing, recorded as
delay `0`. An iteration whose message loop ends without raising resets
`retry_count` to `0` (line 445); note the reset is NOT reached when the
message loop raises, whatever was delivered before the error. -/
def streamExchangeLog (maxReconnectDelay : ℕ) :
    List ConnOutcome → ℕ → List (ℕ × ℕ)
  | [], _ => []
  | o :: rest, retryCount =>
    if retryCount < maxStreamRetries then
      match o with
      | .streamClean _ => streamExchangeLog maxReconnectDelay rest 0
      | _ =>
        let rc := retryCount + 1
        let delay := if rc < maxStreamRetries then min (2 ^ rc) maxReconnectDelay else 0
        (rc, delay) :: streamExchangeLog maxReconnectDelay rest rc
    else []

/-- Externally observable actions of the orchestrator process, used to
model which code paths `main()` actually runs. -/
inductive OrchAction where
  | validateCreds
  | createStreamer
  | setRunning (b : Bool)
  | spawnTasks
  | awaitTasks
  | cancelTasks
  | flushProducer
  | logStats
  deriving DecidableEq

/-- `MarketDataStreamer._signal_handler` (lines 413-416): clears the shared
running flag and returns; it does not call `stop()` or `flush()`. -/
def signalHandlerTrace : List OrchAction := [.setRunning false]

/-- `MarketDataStreamer.start` (lines 460-471): sets the flag, spawns one
task per connector and awaits them. -/
def startTrace : List OrchAction := [.setRunning true, .spawnTasks, .awaitTasks]

/-- `MarketDataStreamer.stop` (lines 473-487): would flush the producer
exactly once — but no call site of `stop` exists anywhere in the program
(`main` awaits `start()` and returns; the signal handler only clears the
flag). -/
def stopTrace : List OrchAction :=
  [.setRunning false, .cancelTasks, .flushProducer, .logStats]

/-- `main()` (lines 490-508): credential check, streamer construction,
`await streamer.start()`, then return. `stop()` is never invoked. -/
def mainTrace : List OrchAction := [.validateCreds, .createStreamer] ++ startTrace

/-- The actions the process performs on a clean signal-driven shutdown:
`main` runs up to awaiting the tasks, the signal handler clears the flag,
the connector tasks observe it and exit, `gather` and `start` return, and
`main` returns. -/
def mainCleanShutdownTrace : List OrchAction :=
  [.validateCreds, .createStreamer, .setRunning true, .spawnTasks]
    ++ signalHandlerTrace ++ [.awaitTasks]

/-! ## BinanceConnector (`kinesis_producer.py` lines 258-321) -/

/-- A parsed Binance websocket message: the JSON object fields the
connector reads, each possibly absent. -/
structure BMsg where
  e : Option JVal := none
  s : Option JVal := none
  p : Option JVal := none
  q : Option JVal := none
  T : Option JVal := none
  t : Option JVal := none
  deriving DecidableEq

/-- The canonical record built by `BinanceConnector.process_message`
(the `MarketData` dataclass, lines 56-68, as the connector fills it). -/
structure MarketDataB where
  exchange : String
  symbol : String
  timestamp : String
  price : ℚ
  volume : ℚ
  trade_id : Option JVal
  quality_score : ℚ
  deriving DecidableEq

/-- Result of a Python call that either returns a value or lets an
exception type that the caller does not catch propagate. -/
inductive PMRes (α : Type) where
  | ret (v : α)
  | raise
  deriving DecidableEq

/-- One step of the required-field loop of `_calculate_quality_score`:
subtract 0.2 for a missing field. -/
def bMissingStep (score : ℚ) (fv : Option JVal) : ℚ :=
  if fv.isNone then score - 0.2 else score

/-- `BinanceConnector._calculate_quality_score` (lines 299-317). The
price-validity block reads `data['p']` inside a `try` that catches only
`ValueError`/`TypeError`, so a missing `p` raises an uncaught `KeyError`:
result `none`. -/
def bQualityScore (d : BMsg) : Option ℚ :=
  let score := [d.s, d.p, d.q, d.T].foldl bMissingStep 1
  match d.p with
  | none => none
  | some v =>
    match pyFloatE v with
    | .ok price => some (max 0 (if price ≤ 0 then score - 0.3 else score))
    | .error .valueError => some (max 0 (score - 0.3))
    | .error .typeError => some (max 0 (score - 0.3))

/-- The price-validity penalty of `_calculate_quality_score`, for messages
whose `p` field is present: 0.3 when the price is non-positive or
unparsable, 0 otherwise. -/
def bPricePenalty (d : BMsg) : ℚ :=
  match d.p with
  | none => 0
  | some v =>
    match pyFloatE v with
    | .ok price => if price ≤ 0 then 0.3 else 0
    | .error _ => 0.3

/-- `BinanceConnector.process_message` (lines 277-297) on an already
JSON-decoded message. The surrounding `try` catches `JSONDecodeError`,
`KeyError` and `ValueError` (returning `None`); `AttributeError` and
`TypeError` propagate (`.raise`). Field accesses happen in the order of the
`MarketData(...)` keyword arguments: `s`, `T`, `p`, `q`, `t`, then the
quality score. -/
def bProcessMessage (d : BMsg) : PMRes (Option MarketDataB) :=
  if d.e ≠ some (JVal.jstr "trade") then .ret none
  else
    match d.s with
    | none => .ret none
    | some sv =>
      match pyLower sv with
      | none => .raise
      | some symbol =>
        match d.T with
        | none => .ret none
        | some tv =>
          match d.p with
          | none => .ret none
          | some pv =>
            match pyFloatE pv with
            | .error .valueError => .ret none
            | .error .typeError => .raise
            | .ok price =>
              match d.q with
              | none => .ret none
              | some qv =>
                match pyFloatE qv with
                | .error .valueError => .ret none
                | .error .typeError => .raise
                | .ok volume =>
                  match bQualityScore d with
                  | none => .ret none
                  | some qs =>
                    .ret (some
                      { exchange := "binance"
                        symbol := symbol
                        timestamp := pyStr tv
                        price := price
                        volume := volume
                        trade_id := d.t
                        quality_score := qs })

/-! ## CoinbaseConnector (`kinesis_producer.py` lines 324-391) -/

/-- A parsed Coinbase websocket message: the JSON object fields the
connector reads, each possibly absent. -/
structure CMsg where
  type : Option JVal := none
  product_id : Option JVal := none
  price : Option JVal := none
  size : Option JVal := none
  time : Option JVal := none
  trade_id : Option JVal := none
  deriving DecidableEq

/-- The canonical record built by `CoinbaseConnector.process_message`.
Unlike the Binance connector (which applies `str(...)`), the timestamp is
stored as the raw `data['time']` value, so the field keeps type `JVal`. -/
structure MarketDataC where
  exchange : String
  symbol : String
  timestamp : JVal
  price : ℚ
  volume : ℚ
  trade_id : Option JVal
  quality_score : ℚ
  deriving DecidableEq

/-- Python `s.replace('-', '')`: remove every dash, as the Coinbase symbol
normalization does after lowering. -/
def stripDash (s : String) : String :=
  ⟨s.data.filter (fun c => c ≠ '-')⟩

/-- `CoinbaseConnector._calculate_quality_score` (lines 362-380): subtract
0.2 per missing field among `product_id`, `price`, `size`, `time`, then the
price-validity block. As in the Binance twin, that block reads
`data['price']` inside a `try` that catches only `ValueError`/`TypeError`,
so a missing `price` raises an uncaught `KeyError`: result `none`. -/
def cQualityScore (d : CMsg) : Option ℚ :=
  let score := [d.product_id, d.price, d.size, d.time].foldl bMissingStep 1
  match d.price with
  | none => none
  | some v =>
    match pyFloatE v with
    | .ok price => some (max 0 (if price ≤ 0 then score - 0.3 else score))
    | .error .valueError => some (max 0 (score - 0.3))
    | .error .typeError => some (max 0 (score - 0.3))

/-- The price-validity penalty of the Coinbase score function, for messages
whose `price` field is present. -/
def cPricePenalty (d : CMsg) : ℚ :=
  match d.price with
  | none => 0
  | some v =>
    match pyFloatE v with
    | .ok price => if price ≤ 0 then 0.3 else 0
    | .error _ => 0.3

/-- `CoinbaseConnector.process_message` (lines 340-360) on an already
JSON-decoded message. `data.get('type') != 'match'` returns `None` without
raising; then the `MarketData(...)` keyword arguments are evaluated in
source order: `product_id` (lowered and dash-stripped), `time` (raw
access), `price`, `size`, `trade_id` (via `get`), then the quality score.
`KeyError` and `ValueError` are caught (`.ret none`); `AttributeError`
(non-string `product_id`) and `TypeError` propagate (`.raise`). -/
def cProcessMessage (d : CMsg) : PMRes (Option MarketDataC) :=
  if d.type ≠ some (JVal.jstr "match") then .ret none
  else
    match d.product_id with
    | none => .ret none
    | some pv =>
      match pyLower pv with
      | none => .raise
      | some sym0 =>
        let symbol := stripDash sym0
        match d.time with
        | none => .ret none
        | some tv =>
          match d.price with
          | none => .ret none
          | some prv =>
            match pyFloatE prv with
            | .error .valueError => .ret none
            | .error .typeError => .raise
            | .ok price =>
              match d.size with
              | none => .ret none
              | some sv =>
                match pyFloatE sv with
                | .error .valueError => .ret none
                | .error .typeError => .raise
                | .ok volume =>
                  match cQualityScore d with
                  | none => .ret none
                  | some qs =>
                    .ret (some
                      { exchange := "coinbase"
                        symbol := symbol
                        timestamp := tv
                        price := price
                        volume := volume
                        trade_id := d.trade_id
                        quality_score := qs })

/-! ## Lemmas about the validator -/

theorem foldl_missingFieldStep_fst (l : List (String × Option JVal)) (s : ℚ) (e : List VErr) :
    (l.foldl missingFieldStep (s, e)).1
      = s - 0.2 * ((l.filter (fun fv => fv.2.isNone)).length : ℚ) := by
  induction l generalizing s e with
  | nil => simp
  | cons fv rest ih =>
    rcases hfv : fv.2 with _ | v <;>
      simp [List.foldl_cons, missingFieldStep, hfv, List.filter_cons, ih] <;>
      push_cast <;> ring

theorem priceBlock_fst (cfg : VConfig) (r : Rec) (se : ℚ × List VErr) :
    (priceBlock cfg r se).1 = se.1 - pricePenalty cfg r := by
  cases hp : r.price with
  | none => simp [priceBlock, pricePenalty, hp]
  | some v =>
    cases hv : pyFloatE v with
    | ok p =>
      by_cases hc : cfg.min_price ≤ p ∧ p ≤ cfg.max_price <;>
        simp [priceBlock, pricePenalty, hp, hv, hc]
    | error e => simp [priceBlock, pricePenalty, hp, hv]

theorem volumeBlock_fst (cfg : VConfig) (r : Rec) (se : ℚ × List VErr) :
    (volumeBlock cfg r se).1 = se.1 - volumePenalty cfg r := by
  cases hp : r.volume with
  | none => simp [volumeBlock, volumePenalty, hp]
  | some v =>
    cases hv : pyFloatE v with
    | ok p =>
      by_cases hc : p < cfg.min_volume <;>
        simp [volumeBlock, volumePenalty, hp, hv, hc]
    | error e => simp [volumeBlock, volumePenalty, hp, hv]

theorem timestampBlock_fst (cfg : VConfig) (now : ℤ) (r : Rec) (se : ℚ × List VErr) :
    (timestampBlock cfg now r se).1 = se.1 - timestampPenalty cfg now r := by
  cases hp : r.timestamp with
  | none => simp [timestampBlock, timestampPenalty, hp]
  | some v =>
    cases hv : pyIntE v with
    | ok t =>
      by_cases hc : cfg.timestamp_tolerance * 1000 < |now - t| <;>
        simp [timestampBlock, timestampPenalty, hp, hv, hc]
    | error e => simp [timestampBlock, timestampPenalty, hp, hv]

theorem vPreExchange_fst (cfg : VConfig) (now : ℤ) (r : Rec) :
    (vPreExchange cfg now r).1
      = 1 - 0.2 * (missingCount r : ℚ) - pricePenalty cfg r - volumePenalty cfg r
        - timestampPenalty cfg now r := by
  unfold vPreExchange missingCount
  rw [timestampBlock_fst, volumeBlock_fst, priceBlock_fst, foldl_missingFieldStep_fst]

theorem pricePenalty_nonneg (cfg : VConfig) (r : Rec) : 0 ≤ pricePenalty cfg r := by
  cases hp : r.price with
  | none => simp [pricePenalty, hp]
  | some v =>
    cases hv : pyFloatE v with
    | ok p =>
      by_cases hc : cfg.min_price ≤ p ∧ p ≤ cfg.max_price <;>
        simp [pricePenalty, hp, hv, hc] <;> norm_num
    | error e => simp [pricePenalty, hp, hv]; norm_num

theorem volumePenalty_nonneg (cfg : VConfig) (r : Rec) : 0 ≤ volumePenalty cfg r := by
  cases hp : r.volume with
  | none => simp [volumePenalty, hp]
  | some v =>
    cases hv : pyFloatE v with
    | ok p =>
      by_cases hc : p < cfg.min_volume <;>
        simp [volumePenalty, hp, hv, hc] <;> norm_num
    | error e => simp [volumePenalty, hp, hv]; norm_num

theorem timestampPenalty_nonneg (cfg : VConfig) (now : ℤ) (r : Rec) :
    0 ≤ timestampPenalty cfg now r := by
  cases hp : r.timestamp with
  | none => simp [timestampPenalty, hp]
  | some v =>
    cases hv : pyIntE v with
    | ok t =>
      by_cases hc : cfg.timestamp_tolerance * 1000 < |now - t| <;>
        simp [timestampPenalty, hp, hv, hc] <;> norm_num
    | error e => simp [timestampPenalty, hp, hv]; norm_num

theorem exchangePenalty_nonneg (r : Rec) : 0 ≤ exchangePenalty r := by
  cases hx : r.exchange with
  | none => simp [exchangePenalty, hx]
  | some v =>
    cases hs : pyLower v with
    | none => simp [exchangePenalty, hx, hs]
    | some s =>
      by_cases hm : s ∈ validExchanges <;>
        simp [exchangePenalty, hx, hs, hm] <;> norm_num

theorem validateRecord_eq_of_lowerable (cfg : VConfig) (now : ℤ) (r : Rec)
    (h : exchangeLowerable r = true) :
    ∃ errs, validateRecord cfg now r
      = some (decide (cfg.quality_threshold ≤ rawScore cfg now r),
          max 0 (rawScore cfg now r), errs) := by
  have hraw : rawScore cfg now r = (vPreExchange cfg now r).1 - exchangePenalty r := by
    rw [rawScore, vPreExchange_fst]
  cases hx : r.exchange with
  | none =>
    have hep : exchangePenalty r = 0 := by simp [exchangePenalty, hx]
    refine ⟨(vPreExchange cfg now r).2, ?_⟩
    simp [validateRecord, hx, hraw, hep]
  | some v =>
    have hsome : (pyLower v).isSome := by
      have := h
      simpa [exchangeLowerable, hx] using this
    obtain ⟨s, hs⟩ := Option.isSome_iff_exists.mp hsome
    by_cases hmem : s ∈ validExchanges
    · have hep : exchangePenalty r = 0 := by simp [exchangePenalty, hx, hs, hmem]
      refine ⟨(vPreExchange cfg now r).2, ?_⟩
      simp [validateRecord, hx, hs, hmem, hraw, hep]
    · have hep : exchangePenalty r = 0.2 := by simp [exchangePenalty, hx, hs, hmem]
      refine ⟨(vPreExchange cfg now r).2 ++ [VErr.invalidExchange], ?_⟩
      simp [validateRecord, hx, hs, hmem, hraw, hep]

/-! ## Claim C2 -/

/-- Claim C2, as stated, is false: `validate_record` reads the wall clock
(`time.time()`), so two invocations on the same record under the same
configuration can disagree. Concretely, for a record with timestamp `0`, an
invocation at time `0` ms returns score 4/5 with no staleness error, while
an invocation at time `10^9` ms returns score 7/10 with a staleness error
(and a different accepted flag). -/
theorem c2_counterexample :
    validateRecord defaultVConfig 0
        { symbol := some (JVal.jstr "btcusdt"), timestamp := some (JVal.jintstr 0),
          price := some (JVal.jnum 100), volume := some (JVal.jnum 1) }
      ≠ validateRecord defaultVConfig 1000000000
        { symbol := some (JVal.jstr "btcusdt"), timestamp := some (JVal.jintstr 0),
          price := some (JVal.jnum 100), volume := some (JVal.jnum 1) } := by
  have h1 : validateRecord defaultVConfig 0
      { symbol := some (JVal.jstr "btcusdt"), timestamp := some (JVal.jintstr 0),
        price := some (JVal.jnum 100), volume := some (JVal.jnum 1) }
      = some (true, 4 / 5, [VErr.missingField "exchange"]) := by
    norm_num [validateRecord, vPreExchange, priceBlock, volumeBlock, timestampBlock,
      requiredFieldsOf, missingFieldStep, pyFloatE, pyIntE, defaultVConfig]
  have h2 : validateRecord defaultVConfig 1000000000
      { symbol := some (JVal.jstr "btcusdt"), timestamp := some (JVal.jintstr 0),
        price := some (JVal.jnum 100), volume := some (JVal.jnum 1) }
      = some (false, 7 / 10, [VErr.missingField "exchange", VErr.timestampTooOld]) := by
    norm_num [validateRecord, vPreExchange, priceBlock, volumeBlock, timestampBlock,
      requiredFieldsOf, missingFieldStep, pyFloatE, pyIntE, defaultVConfig]
  rw [h1, h2]
  simp

/-- Claim C2 amended: `validate_record` is side-effect free — it leaves the
validator configuration and the record unchanged — and it is deterministic
given the same record, the same configuration AND the same current time
(more precisely, whenever the timestamp-staleness block evaluates the same
way, in particular at equal wall-clock readings). The dependence on the
clock is exactly what the counterexample exhibits. -/
theorem c2_validator_pure_and_deterministic :
    (∀ (cfg : VConfig) (now : ℤ) (r : Rec),
        validateRecordRun cfg now r = (validateRecord cfg now r, cfg, r))
      ∧ ∀ (cfg : VConfig) (n1 n2 : ℤ) (r : Rec),
          timestampBlock cfg n1 r = timestampBlock cfg n2 r →
          validateRecord cfg n1 r = validateRecord cfg n2 r := by
  constructor
  · intro cfg now r
    rfl
  · intro cfg n1 n2 r h
    unfold validateRecord vPreExchange
    rw [h]

/-- Witness for the amended claim C2 at concrete inputs: purity at one
record, and determinism of two invocations at times 0 and 7 on a record
without a timestamp field. -/
theorem c2_witness :
    (validateRecordRun defaultVConfig 0 { price := some (JVal.jnum 5) }
        = (validateRecord defaultVConfig 0 { price := some (JVal.jnum 5) },
           defaultVConfig, { price := some (JVal.jnum 5) }))
      ∧ validateRecord defaultVConfig 0 { price := some (JVal.jnum 5) }
          = validateRecord defaultVConfig 7 { price := some (JVal.jnum 5) } :=
  ⟨c2_validator_pure_and_deterministic.1 defaultVConfig 0 _,
   c2_validator_pure_and_deterministic.2 defaultVConfig 0 7 _ rfl⟩

/-! ## Claim C5 -/

/-- Claim C5, as stated, is false on one family of records: when the
`exchange` field is present but not a string, `validate_record` raises an
uncaught `AttributeError` at `record['exchange'].lower()` instead of
returning `accepted = false`. Concretely, a record with price `-5` (a
number `≤ 0`) and exchange `7` makes the call raise (result `none`). -/
theorem c5_counterexample :
    validateRecord defaultVConfig 0
        { exchange := some (JVal.jnum 7), price := some (JVal.jnum (-5)) } = none := by
  simp [validateRecord, pyLower]

/-- Claim C5 amended: under the default configuration, every record whose
price field is a number `≤ 0` and whose exchange field (when present) is a
string — so that `validate_record` returns at all — is rejected:
`accepted = false`. The price penalty of 0.3 alone already caps the score
at 0.7, below the 0.8 threshold. -/
theorem c5_nonpositive_price_rejected (now : ℤ) (r : Rec) (p : ℚ)
    (hp : r.price = some (JVal.jnum p)) (hple : p ≤ 0)
    (hex : exchangeLowerable r = true) :
    ∃ sc errs, validateRecord defaultVConfig now r = some (false, sc, errs) := by
  obtain ⟨errs, heq⟩ := validateRecord_eq_of_lowerable defaultVConfig now r hex
  have hpp : pricePenalty defaultVConfig r = 0.3 := by
    have hnot : ¬ (defaultVConfig.min_price ≤ p ∧ p ≤ defaultVConfig.max_price) := by
      rintro ⟨h1, _⟩
      have h01 : defaultVConfig.min_price = 1 / 100 := rfl
      rw [h01] at h1
      linarith
    simp [pricePenalty, hp, pyFloatE, hnot]
  have hub : rawScore defaultVConfig now r ≤ 7 / 10 := by
    have h1 := volumePenalty_nonneg defaultVConfig r
    have h2 := timestampPenalty_nonneg defaultVConfig now r
    have h3 := exchangePenalty_nonneg r
    have h4 : (0 : ℚ) ≤ 0.2 * (missingCount r : ℚ) := by positivity
    rw [rawScore, hpp]
    norm_num
    linarith
  have hacc : ¬ (defaultVConfig.quality_threshold ≤ rawScore defaultVConfig now r) := by
    have hth : defaultVConfig.quality_threshold = 4 / 5 := rfl
    rw [hth]
    intro hc
    linarith
  refine ⟨max 0 (rawScore defaultVConfig now r), errs, ?_⟩
  rw [heq, decide_eq_false hacc]

/-- Witness for the amended claim C5: a concrete record with price `-5`
and no exchange field is rejected. -/
theorem c5_witness :
    ∃ sc errs,
      validateRecord defaultVConfig 0
          { symbol := some (JVal.jstr "btcusdt"), timestamp := some (JVal.jintstr 0),
            price := some (JVal.jnum (-5)), volume := some (JVal.jnum 1) }
        = some (false, sc, errs) :=
  c5_nonpositive_price_rejected 0 _ (-5) rfl (by norm_num) rfl

/-! ## Claim C6 -/

/-- Claim C6, as stated ("for every record"), is false for the records on
which `validate_record` raises instead of returning a score: a record whose
`exchange` field is present but not a string (here Python `None`). -/
theorem c6_counterexample :
    validateRecord defaultVConfig 0 { exchange := some JVal.jnull } = none := by
  simp [validateRecord, pyLower]

/-- Claim C6 amended: for every configuration and every record on which
`validate_record` returns (exchange absent or a string), the returned score
is the floor at 0 of 1 minus 0.2 for EACH missing required field minus the
other (price / volume / timestamp / exchange-allow-list) penalties, all
combined additively; and the returned score is never below 0. -/
theorem c6_score_additive (cfg : VConfig) (now : ℤ) (r : Rec)
    (hex : exchangeLowerable r = true) :
    ∃ acc sc errs, validateRecord cfg now r = some (acc, sc, errs)
      ∧ sc = max 0 (1 - 0.2 * (missingCount r : ℚ) - pricePenalty cfg r
          - volumePenalty cfg r - timestampPenalty cfg now r - exchangePenalty r)
      ∧ 0 ≤ sc := by
  obtain ⟨errs, heq⟩ := validateRecord_eq_of_lowerable cfg now r hex
  exact ⟨_, _, errs, heq, rfl, le_max_left 0 _⟩

/-- Witness for the amended claim C6: a record missing four of the five
required fields. -/
theorem c6_witness :
    ∃ acc sc errs,
      validateRecord defaultVConfig 0 { price := some (JVal.jnum 100) }
        = some (acc, sc, errs)
      ∧ sc = max 0 (1
          - 0.2 * (missingCount { price := some (JVal.jnum 100) } : ℚ)
          - pricePenalty defaultVConfig { price := some (JVal.jnum 100) }
          - volumePenalty defaultVConfig { price := some (JVal.jnum 100) }
          - timestampPenalty defaultVConfig 0 { price := some (JVal.jnum 100) }
          - exchangePenalty { price := some (JVal.jnum 100) })
      ∧ 0 ≤ sc :=
  c6_score_additive defaultVConfig 0 { price := some (JVal.jnum 100) } rfl

/-! ## Claim C1 -/

/-- Claim C1 is a bug in the code: on the clean signal-driven shutdown path
the process performs zero `flush()` calls on the queue client, not exactly
one. The signal handler only clears the running flag; `main()` awaits
`start()` and returns without ever invoking `stop()` — the only place that
would flush (exactly once). The intended behaviour lives in the dead
`stop()` method, as the second conjunct shows. -/
theorem c1_no_flush_on_clean_shutdown :
    mainCleanShutdownTrace.count OrchAction.flushProducer = 0
      ∧ stopTrace.count OrchAction.flushProducer = 1 := by
  decide

/-! ## Claim C3 -/

theorem flushLoop_all_err (outcome : ℕ → PutOutcome) (maxRetries : ℕ) (st : PState)
    (hout : ∀ i, i < maxRetries → outcome i = .err) :
    ∀ remaining, 1 ≤ remaining → remaining ≤ maxRetries →
      flushLoop outcome maxRetries st remaining
        = (false,
           { records_buffer := []
             total_records_sent := st.total_records_sent
             failed_records := st.failed_records + (st.records_buffer.length : ℤ) },
           (List.range' (maxRetries - remaining) (remaining - 1)).map (fun i => 2 ^ i),
           remaining) := by
  intro remaining
  induction remaining with
  | zero => omega
  | succ r ih =>
    intro _ h2
    cases r with
    | zero =>
      have ha : outcome (maxRetries - 1) = .err := hout _ (by omega)
      simp [flushLoop, ha]
    | succ r2 =>
      have ha : outcome (maxRetries - (r2 + 1 + 1)) = .err := hout _ (by omega)
      have hr := ih (by omega) (by omega)
      rw [flushLoop]
      simp only [ha]
      rw [if_neg (Nat.succ_ne_zero r2), hr]
      have harith : maxRetries - (r2 + 1 + 1) + 1 = maxRetries - (r2 + 1) := by omega
      have hrange : List.range' (maxRetries - (r2 + 1 + 1)) (r2 + 1)
          = (maxRetries - (r2 + 1 + 1)) :: List.range' (maxRetries - (r2 + 1)) r2 := by
        rw [← harith]
        rfl
      simp [hrange]

/-- Claim C3: when the buffer is non-empty and every `put_records` attempt
raises a transport error, `flush()` makes exactly `maxRetries` attempts,
sleeping `2^0, 2^1, ...` seconds between consecutive attempts (the delay
doubles per attempt), then returns `False` with the failed-record counter
incremented by exactly the buffer length and the buffer cleared. -/
theorem c3_flush_transport_failure (outcome : ℕ → PutOutcome) (maxRetries : ℕ)
    (st : PState) (hne : st.records_buffer ≠ []) (hmr : 1 ≤ maxRetries)
    (hout : ∀ i, i < maxRetries → outcome i = .err) :
    flushBuffer outcome maxRetries st
      = (false,
         { records_buffer := []
           total_records_sent := st.total_records_sent
           failed_records := st.failed_records + (st.records_buffer.length : ℤ) },
         (List.range (maxRetries - 1)).map (fun i => 2 ^ i),
         maxRetries) := by
  have hbe : st.records_buffer.isEmpty = false := by
    cases hb : st.records_buffer with
    | nil => exact absurd hb hne
    | cons a l => rfl
  have h := flushLoop_all_err outcome maxRetries st hout maxRetries hmr le_rfl
  rw [Nat.sub_self] at h
  unfold flushBuffer
  rw [hbe, List.range_eq_range']
  simpa using h

/-- Witness for claim C3: a two-record buffer, three attempts all raising;
the flush returns false after exactly 3 attempts with sleeps 1 s and 2 s,
the failed counter at 2, the buffer empty. -/
theorem c3_witness :
    (({ records_buffer := [{ data := "a", partitionKey := "x" },
                           { data := "b", partitionKey := "y" }] } : PState).records_buffer ≠ [])
      ∧ flushBuffer (fun _ => PutOutcome.err) 3
          { records_buffer := [{ data := "a", partitionKey := "x" },
                               { data := "b", partitionKey := "y" }] }
        = (false,
           { records_buffer := [], total_records_sent := 0, failed_records := 2 },
           [1, 2], 3) := by
  refine ⟨by simp, ?_⟩
  have h := c3_flush_transport_failure (fun _ => PutOutcome.err) 3
      { records_buffer := [{ data := "a", partitionKey := "x" },
                           { data := "b", partitionKey := "y" }] }
      (by simp) (by norm_num) (fun i _ => rfl)
  simpa using h

/-! ## Claim C4 -/

/-- Claim C4 is a bug in the code: the reset `retry_count = 0` sits after
the message loop, so it only runs when the websocket iterator ends without
an exception; a reconnection that delivers a record and then fails with an
error jumps to `except` first. Concretely, after outcome 1 (connect fails:
retry 1, delay `min(2^1,60) = 2`) and outcome 2 (reconnect succeeds,
delivers 1 record, then errors), the counter is incremented to 2 with delay
`min(2^2,60) = 4` — not reset and re-counted to 1 with delay 2 as the claim
requires. -/
theorem c4_retry_counter_not_reset :
    streamExchangeLog 60 [ConnOutcome.connectFail, ConnOutcome.streamThenError 1] 0
      = [(1, 2), (2, 4)]
      ∧ ((2, 4) : ℕ × ℕ) ≠ (1, 2) := by
  decide

/-! ## Claim C7 -/

theorem foldl_bMissingStep (l : List (Option JVal)) (s : ℚ) :
    l.foldl bMissingStep s = s - 0.2 * ((l.filter Option.isNone).length : ℚ) := by
  induction l generalizing s with
  | nil => simp
  | cons a rest ih =>
    rcases a with _ | v <;>
      simp [bMissingStep, List.filter_cons, ih] <;> push_cast <;> ring

/-- Claim C7, as stated, is false at both connectors: a trade-type message
missing a required field does not yield a record with a reduced score —
`process_message` hits a `KeyError` on the missing field, catches it and
returns `None`. Concretely, a Binance trade message with `p`, `q`, `T` but
no `s` decodes to nothing (per the claim it should decode to a record with
score 0.8), and likewise a Coinbase match message with `price`, `size`,
`time` but no `product_id`. -/
theorem c7_counterexample :
    bProcessMessage
        { e := some (JVal.jstr "trade"), p := some (JVal.jintstr 100),
          q := some (JVal.jintstr 1), T := some (JVal.jnum 123) }
      = PMRes.ret none
      ∧ (∀ md : MarketDataB,
          bProcessMessage
              { e := some (JVal.jstr "trade"), p := some (JVal.jintstr 100),
                q := some (JVal.jintstr 1), T := some (JVal.jnum 123) }
            ≠ PMRes.ret (some md))
      ∧ cProcessMessage
          { type := some (JVal.jstr "match"), price := some (JVal.jintstr 100),
            size := some (JVal.jintstr 1),
            time := some (JVal.jstr "2023-11-14T22:13:20Z") }
        = PMRes.ret none
      ∧ ∀ md : MarketDataC,
          cProcessMessage
              { type := some (JVal.jstr "match"), price := some (JVal.jintstr 100),
                size := some (JVal.jintstr 1),
                time := some (JVal.jstr "2023-11-14T22:13:20Z") }
            ≠ PMRes.ret (some md) := by
  refine ⟨by decide, ?_, by decide, ?_⟩
  · intro md h
    rw [(by decide : bProcessMessage
        { e := some (JVal.jstr "trade"), p := some (JVal.jintstr 100),
          q := some (JVal.jintstr 1), T := some (JVal.jnum 123) }
        = PMRes.ret none)] at h
    simp at h
  · intro md h
    rw [(by decide : cProcessMessage
        { type := some (JVal.jstr "match"), price := some (JVal.jintstr 100),
          size := some (JVal.jintstr 1),
          time := some (JVal.jstr "2023-11-14T22:13:20Z") }
        = PMRes.ret none)] at h
    simp at h

/-- Claim C7 amended, for each of the two connectors: (a, d) for a message
whose price field (`p` for Binance, `price` for Coinbase) is present, the
score function of the connector computes exactly 1.0 minus 0.2 per missing
required field minus the 0.3 price penalty (non-positive or unparsable
price), floored at 0; (b, e) when the price field is absent the score
function itself raises an uncaught `KeyError` rather than subtracting 0.2;
and (c, f) the decode path never returns a record for a trade-type message
with a missing required field: whenever `process_message` returns a record,
all four required fields were present in the message. -/
theorem c7_score_and_decode :
    ((∀ d : BMsg, d.p ≠ none →
        bQualityScore d
          = some (max 0 (1
              - 0.2 * (([d.s, d.p, d.q, d.T].filter Option.isNone).length : ℚ)
              - bPricePenalty d)))
      ∧ (∀ d : BMsg, d.p = none → bQualityScore d = none)
      ∧ ∀ (m : BMsg) (md : MarketDataB),
          bProcessMessage m = PMRes.ret (some md) →
          m.s ≠ none ∧ m.p ≠ none ∧ m.q ≠ none ∧ m.T ≠ none)
      ∧ (∀ d : CMsg, d.price ≠ none →
          cQualityScore d
            = some (max 0 (1
                - 0.2 * (([d.product_id, d.price, d.size, d.time].filter
                    Option.isNone).length : ℚ)
                - cPricePenalty d)))
      ∧ (∀ d : CMsg, d.price = none → cQualityScore d = none)
      ∧ ∀ (m : CMsg) (md : MarketDataC),
          cProcessMessage m = PMRes.ret (some md) →
          m.product_id ≠ none ∧ m.price ≠ none ∧ m.size ≠ none ∧ m.time ≠ none := by
  refine ⟨⟨?_, ?_, ?_⟩, ?_, ?_, ?_⟩
  · intro d hp
    obtain ⟨v, hv⟩ := Option.ne_none_iff_exists'.mp hp
    have hfold := foldl_bMissingStep [d.s, d.p, d.q, d.T] 1
    rw [hv] at hfold
    cases hf : pyFloatE v with
    | ok p =>
      simp only [bQualityScore, bPricePenalty, hv, hf, hfold]
      by_cases hple : p ≤ 0
      · rw [if_pos hple, if_pos hple]
      · rw [if_neg hple, if_neg hple, sub_zero]
    | error e =>
      cases e <;> simp only [bQualityScore, bPricePenalty, hv, hf, hfold]
  · intro d hp
    simp [bQualityScore, hp]
  · intro m md h
    unfold bProcessMessage at h
    by_cases he : m.e ≠ some (JVal.jstr "trade")
    · rw [if_pos he] at h
      simp at h
    rw [if_neg he] at h
    cases hs : m.s with
    | none => simp [hs] at h
    | some sv =>
      simp only [hs] at h
      cases hlow : pyLower sv with
      | none => simp [hlow] at h
      | some sym =>
        simp only [hlow] at h
        cases hT : m.T with
        | none => simp [hT] at h
        | some tv =>
          simp only [hT] at h
          cases hp : m.p with
          | none => simp [hp] at h
          | some pv =>
            simp only [hp] at h
            cases hfp : pyFloatE pv with
            | error e => cases e <;> simp [hfp] at h
            | ok price =>
              simp only [hfp] at h
              cases hq : m.q with
              | none => simp [hq] at h
              | some qv =>
                simp [hs, hp, hq, hT]
  · intro d hp
    obtain ⟨v, hv⟩ := Option.ne_none_iff_exists'.mp hp
    have hfold := foldl_bMissingStep [d.product_id, d.price, d.size, d.time] 1
    rw [hv] at hfold
    cases hf : pyFloatE v with
    | ok p =>
      simp only [cQualityScore, cPricePenalty, hv, hf, hfold]
      by_cases hple : p ≤ 0
      · rw [if_pos hple, if_pos hple]
      · rw [if_neg hple, if_neg hple, sub_zero]
    | error e =>
      cases e <;> simp only [cQualityScore, cPricePenalty, hv, hf, hfold]
  · intro d hp
    simp [cQualityScore, hp]
  · intro m md h
    unfold cProcessMessage at h
    by_cases ht : m.type ≠ some (JVal.jstr "match")
    · rw [if_pos ht] at h
      simp at h
    rw [if_neg ht] at h
    cases hpid : m.product_id with
    | none => simp [hpid] at h
    | some pv =>
      simp only [hpid] at h
      cases hlow : pyLower pv with
      | none => simp [hlow] at h
      | some sym0 =>
        simp only [hlow] at h
        cases htime : m.time with
        | none => simp [htime] at h
        | some tv =>
          simp only [htime] at h
          cases hpr : m.price with
          | none => simp [hpr] at h
          | some prv =>
            simp only [hpr] at h
            cases hfp : pyFloatE prv with
            | error e => cases e <;> simp [hfp] at h
            | ok price =>
              simp only [hfp] at h
              cases hsz : m.size with
              | none => simp [hsz] at h
              | some sv =>
                simp [hpid, hpr, hsz, htime]

/-- Witness for the amended claim C7, at both connectors: a complete
Binance trade message and a complete Coinbase match message each decode to
a record (so all four fields were present), and each quality score is the
additive formula with no missing field and no price penalty. -/
theorem c7_witness :
    (bQualityScore
        { e := some (JVal.jstr "trade"), s := some (JVal.jintstr 777),
          p := some (JVal.jnum 50000), q := some (JVal.jnum 1),
          T := some (JVal.jintstr 1700000000000) }
      = some (max 0 (1
          - 0.2 * ((([some (JVal.jintstr 777), some (JVal.jnum 50000),
              some (JVal.jnum 1), some (JVal.jintstr 1700000000000)]
                : List (Option JVal)).filter Option.isNone).length : ℚ)
          - bPricePenalty
              { e := some (JVal.jstr "trade"), s := some (JVal.jintstr 777),
                p := some (JVal.jnum 50000), q := some (JVal.jnum 1),
                T := some (JVal.jintstr 1700000000000) })))
      ∧ (({ e := some (JVal.jstr "trade"), s := some (JVal.jintstr 777),
            p := some (JVal.jnum 50000), q := some (JVal.jnum 1),
            T := some (JVal.jintstr 1700000000000) } : BMsg).s ≠ none
          ∧ ({ e := some (JVal.jstr "trade"), s := some (JVal.jintstr 777),
               p := some (JVal.jnum 50000), q := some (JVal.jnum 1),
               T := some (JVal.jintstr 1700000000000) } : BMsg).p ≠ none
          ∧ ({ e := some (JVal.jstr "trade"), s := some (JVal.jintstr 777),
               p := some (JVal.jnum 50000), q := some (JVal.jnum 1),
               T := some (JVal.jintstr 1700000000000) } : BMsg).q ≠ none
          ∧ ({ e := some (JVal.jstr "trade"), s := some (JVal.jintstr 777),
               p := some (JVal.jnum 50000), q := some (JVal.jnum 1),
               T := some (JVal.jintstr 1700000000000) } : BMsg).T ≠ none)
      ∧ cQualityScore
          { type := some (JVal.jstr "match"), product_id := some (JVal.jstr "BTC-USD"),
            price := some (JVal.jnum 50000), size := some (JVal.jnum 1),
            time := some (JVal.jstr "2023-11-14T22:13:20Z") }
        = some (max 0 (1
            - 0.2 * ((([some (JVal.jstr "BTC-USD"), some (JVal.jnum 50000),
                some (JVal.jnum 1), some (JVal.jstr "2023-11-14T22:13:20Z")]
                  : List (Option JVal)).filter Option.isNone).length : ℚ)
            - cPricePenalty
                { type := some (JVal.jstr "match"),
                  product_id := some (JVal.jstr "BTC-USD"),
                  price := some (JVal.jnum 50000), size := some (JVal.jnum 1),
                  time := some (JVal.jstr "2023-11-14T22:13:20Z") }))
      ∧ (({ type := some (JVal.jstr "match"), product_id := some (JVal.jstr "BTC-USD"),
            price := some (JVal.jnum 50000), size := some (JVal.jnum 1),
            time := some (JVal.jstr "2023-11-14T22:13:20Z") } : CMsg).product_id ≠ none
          ∧ ({ type := some (JVal.jstr "match"), product_id := some (JVal.jstr "BTC-USD"),
               price := some (JVal.jnum 50000), size := some (JVal.jnum 1),
               time := some (JVal.jstr "2023-11-14T22:13:20Z") } : CMsg).price ≠ none
          ∧ ({ type := some (JVal.jstr "match"), product_id := some (JVal.jstr "BTC-USD"),
               price := some (JVal.jnum 50000), size := some (JVal.jnum 1),
               time := some (JVal.jstr "2023-11-14T22:13:20Z") } : CMsg).size ≠ none
          ∧ ({ type := some (JVal.jstr "match"), product_id := some (JVal.jstr "BTC-USD"),
               price := some (JVal.jnum 50000), size := some (JVal.jnum 1),
               time := some (JVal.jstr "2023-11-14T22:13:20Z") } : CMsg).time ≠ none) :=
  ⟨c7_score_and_decode.1.1 _ (by simp),
   c7_score_and_decode.1.2.2 _
     { exchange := "binance", symbol := toString (777 : ℤ),
       timestamp := pyStr (JVal.jintstr 1700000000000), price := 50000, volume := 1,
       trade_id := none, quality_score := max 0 1 }
     rfl,
   c7_score_and_decode.2.1 _ (by simp),
   c7_score_and_decode.2.2.2 _
     { exchange := "coinbase", symbol := stripDash (strLower "BTC-USD"),
       timestamp := JVal.jstr "2023-11-14T22:13:20Z", price := 50000, volume := 1,
       trade_id := none, quality_score := max 0 1 }
     rfl⟩

/-! ## Claim C9 -/

/-- Claim C9, as stated ("for every integer epoch-millisecond timestamp"),
is false: for a timestamp whose instant falls outside calendar years
1..9999, `datetime.fromtimestamp` raises `ValueError`, which the same
`except` clause catches, so the key is derived from the current time, not
from `T`. Concretely `T = 253402300800000` (10000-01-01T00:00Z) with the
clock at epoch 0 yields the epoch-0 key, not the year-10000 key the claim
requires. -/
theorem c9_counterexample :
    getPartitionKey 0
        { exchange := some (JVal.jstr "binance"), symbol := some (JVal.jstr "btcusdt"),
          timestamp := some (JVal.jintstr 253402300800000) }
      = "binance/btcusdt/year=1970/month=01/day=01/hour=00"
      ∧ "binance/btcusdt/year=1970/month=01/day=01/hour=00"
        ≠ "binance/btcusdt/year=10000/month=01/day=01/hour=00" := by
  exact ⟨by decide, by decide⟩

/-- Claim C9 amended: for records with exchange `binance`, symbol
`btcusdt` and an integer epoch-millisecond timestamp `T` whose instant lies
within `datetime` range (UTC years 1..9999), the partition key is
`binance/btcusdt/year=Y/month=MM/day=DD/hour=HH` with the zero-padded UTC
fields of `T` (`partitionOf` applied to the floored epoch second of `T`);
and when the timestamp value is a non-numeric string (unparsable by
`int()`), the key is derived from the current time instead. -/
theorem c9_partition_key :
    (∀ (nowSec t : ℤ) (r : Rec),
        r.exchange = some (JVal.jstr "binance") →
        r.symbol = some (JVal.jstr "btcusdt") →
        r.timestamp = some (JVal.jintstr t) →
        minDatetimeSec ≤ Int.fdiv t 1000 → Int.fdiv t 1000 ≤ maxDatetimeSec →
        getPartitionKey nowSec r = partitionOf "binance" "btcusdt" (Int.fdiv t 1000))
      ∧ ∀ (nowSec : ℤ) (r : Rec) (s : String),
          r.exchange = some (JVal.jstr "binance") →
          r.symbol = some (JVal.jstr "btcusdt") →
          r.timestamp = some (JVal.jstr s) →
          getPartitionKey nowSec r = partitionOf "binance" "btcusdt" nowSec := by
  constructor
  · intro nowSec t r hex hsym ht hlo hhi
    simp [getPartitionKey, hex, hsym, ht, pyIntE, pyStr, hlo, hhi]
  · intro nowSec r s hex hsym ht
    simp [getPartitionKey, hex, hsym, ht, pyIntE, pyStr]

/-- Witness for the amended claim C9: timestamp 1700000000000 ms is
2023-11-14T22:13:20Z, and the computed key renders those UTC fields. -/
theorem c9_witness :
    getPartitionKey 0
        { exchange := some (JVal.jstr "binance"), symbol := some (JVal.jstr "btcusdt"),
          timestamp := some (JVal.jintstr 1700000000000) }
      = partitionOf "binance" "btcusdt" (Int.fdiv 1700000000000 1000)
      ∧ partitionOf "binance" "btcusdt" (Int.fdiv 1700000000000 1000)
        = "binance/btcusdt/year=2023/month=11/day=14/hour=22" :=
  ⟨c9_partition_key.1 0 1700000000000 _ rfl rfl rfl (by decide) (by decide), by decide⟩

/-! ## Claim C10 -/

/-- Claim C10, as stated, is false in its "only when" clause: the
current-time fallback is also reached when the timestamp IS convertible to
an integer but its instant falls outside `datetime` range. Concretely,
timestamp `-62135596800001` ms converts cleanly via `int()`, yet the key is
derived from the clock (here epoch second 3600), and differs from the key
the record timestamp would give. -/
theorem c10_counterexample :
    pyIntE (JVal.jintstr (-62135596800001)) = Except.ok (-62135596800001)
      ∧ getPartitionKey 3600
          { exchange := some (JVal.jstr "coinbase"), symbol := some (JVal.jstr "btcusd"),
            timestamp := some (JVal.jintstr (-62135596800001)) }
        = "coinbase/btcusd/year=1970/month=01/day=01/hour=01"
      ∧ getPartitionKey 3600
          { exchange := some (JVal.jstr "coinbase"), symbol := some (JVal.jstr "btcusd"),
            timestamp := some (JVal.jintstr (-62135596800001)) }
        ≠ partitionOf "coinbase" "btcusd" (Int.fdiv (-62135596800001) 1000) := by
  exact ⟨rfl, by decide, by decide⟩

/-- Claim C10 amended: a record with no timestamp field defaults to the
integer 0 (`record.get('timestamp', 0)`), which is in `datetime` range, so
its key is the epoch-0 key `{exchange}/{symbol}/year=1970/month=01/day=01/hour=00`,
not a key derived from the current time; and the current-time fallback is
never taken when a present timestamp converts to an integer whose instant
is within range (UTC years 1..9999) — for such records the key comes from
the record timestamp. -/
theorem c10_missing_timestamp_epoch0 :
    (∀ (nowSec : ℤ) (r : Rec) (ex sym : String),
        r.exchange = some (JVal.jstr ex) → r.symbol = some (JVal.jstr sym) →
        r.timestamp = none →
        getPartitionKey nowSec r = partitionOf ex sym 0)
      ∧ ∀ (nowSec t : ℤ) (r : Rec) (ex sym : String),
          r.exchange = some (JVal.jstr ex) → r.symbol = some (JVal.jstr sym) →
          r.timestamp = some (JVal.jintstr t) →
          minDatetimeSec ≤ Int.fdiv t 1000 → Int.fdiv t 1000 ≤ maxDatetimeSec →
          getPartitionKey nowSec r = partitionOf ex sym (Int.fdiv t 1000) := by
  constructor
  · intro nowSec r ex sym hex hsym ht
    have h0 : pyIntE (JVal.jnum 0) = Except.ok 0 := rfl
    have hlo : minDatetimeSec ≤ (0 : ℤ) := by decide
    have hhi : (0 : ℤ) ≤ maxDatetimeSec := by decide
    simp [getPartitionKey, hex, hsym, ht, h0, pyStr, hlo, hhi]
  · intro nowSec t r ex sym hex hsym ht hlo hhi
    simp [getPartitionKey, hex, hsym, ht, pyIntE, pyStr, hlo, hhi]

/-- Witness for the amended claim C10: a record without a timestamp lands
in the 1970-01-01 hour-00 partition even with the clock at a much later
time, and an in-range timestamped record keys by its own timestamp. -/
theorem c10_witness :
    (getPartitionKey 999999
        { exchange := some (JVal.jstr "binance"), symbol := some (JVal.jstr "ethusdt") }
      = partitionOf "binance" "ethusdt" 0)
      ∧ partitionOf "binance" "ethusdt" 0
        = "binance/ethusdt/year=1970/month=01/day=01/hour=00"
      ∧ getPartitionKey 999999
          { exchange := some (JVal.jstr "binance"), symbol := some (JVal.jstr "ethusdt"),
            timestamp := some (JVal.jintstr 3600000) }
        = partitionOf "binance" "ethusdt" 3600 :=
  ⟨c10_missing_timestamp_epoch0.1 999999 _ "binance" "ethusdt" rfl rfl rfl,
   by decide,
   c10_missing_timestamp_epoch0.2 999999 3600000 _ "binance" "ethusdt" rfl rfl rfl
     (by decide) (by decide)⟩

/-! ## Claim C8 -/

theorem lastN_length (n : ℕ) (l : List α) : (lastN n l).length = min n l.length := by
  simp [lastN]
  omega

theorem lastN_of_le (n : ℕ) (l : List α) (h : l.length ≤ n) : lastN n l = l := by
  unfold lastN
  rw [Nat.sub_eq_zero_of_le h, List.drop_zero]

theorem lastN_lastN (a b : ℕ) (l : List α) (hab : a ≤ b) :
    lastN a (lastN b l) = lastN a l := by
  unfold lastN
  rw [List.length_drop, List.drop_drop]
  congr 1
  omega

theorem histAppend_lastN (m : List ℚ) (p : ℚ) :
    histAppend (lastN maxHistorySize m) p = lastN maxHistorySize (m ++ [p]) := by
  have hmhs : maxHistorySize = 100 := rfl
  by_cases h : m.length < 100
  · have h1 : lastN maxHistorySize m = m := lastN_of_le _ _ (by rw [hmhs]; omega)
    have h2 : lastN maxHistorySize (m ++ [p]) = m ++ [p] :=
      lastN_of_le _ _ (by rw [hmhs, List.length_append]; simp; omega)
    rw [h1, h2]
    simp only [histAppend]
    rw [if_neg (by rw [hmhs, List.length_append]; simp; omega)]
  · push_neg at h
    have hlen : (lastN maxHistorySize m).length = maxHistorySize := by
      rw [lastN_length, hmhs]
      omega
    have htail : (lastN maxHistorySize m).tail = m.drop (m.length - maxHistorySize + 1) := by
      unfold lastN
      rw [List.tail_drop]
    have hne : lastN maxHistorySize m ≠ [] := by
      intro hnil
      rw [hnil] at hlen
      simp [hmhs] at hlen
    simp only [histAppend]
    rw [if_pos (by rw [List.length_append, hlen]; simp)]
    cases hc : lastN maxHistorySize m with
    | nil => exact absurd hc hne
    | cons a rest =>
      have hrest : rest = m.drop (m.length - maxHistorySize + 1) := by
        rw [← htail, hc]
        rfl
      simp only [hc, List.cons_append, List.tail_cons]
      rw [hrest]
      unfold lastN
      rw [List.length_append]
      rw [List.drop_append_of_le_length (by rw [hmhs, List.length_singleton]; omega)]
      congr 2
      rw [hmhs, List.length_singleton]
      omega

theorem foldl_histAppend (l m : List ℚ) :
    l.foldl histAppend (lastN maxHistorySize m) = lastN maxHistorySize (m ++ l) := by
  induction l generalizing m with
  | nil => simp
  | cons p rest ih =>
    rw [List.foldl_cons, histAppend_lastN, ih, List.append_assoc]
    rfl

theorem foldl_histAppend_nil (l : List ℚ) :
    l.foldl histAppend [] = lastN maxHistorySize l := by
  have h := foldl_histAppend l []
  simpa [lastN] using h

/-- Output fields of one `enrich_record` call on a minimal trade record,
given that the history stored for the symbol is `H`: the call returns a
record whose `sma_10` and volatility are computed from the appended
history `histAppend H p`, and the state maps the symbol to that appended
history. -/
theorem enrichRecord_tradeRec_fields (now : ℤ) (st : EState) (sym : String) (p : ℚ)
    (H : List ℚ) (hH : (lookupHist st (JVal.jstr sym)).getD [] = H) :
    ∃ e : ERec,
      enrichRecord now st (tradeRec sym p)
        = some (e, insertHist st (JVal.jstr sym) (histAppend H p))
      ∧ e.sma_10 = (if 10 ≤ (histAppend H p).length
          then some ((lastN 10 (histAppend H p)).sum / 10) else none)
      ∧ e.volatility_sq = (if 10 ≤ (histAppend H p).length
          then some (((lastN 10 (histAppend H p)).map
              (fun q => (q - (lastN 10 (histAppend H p)).sum
                / ((lastN 10 (histAppend H p)).length : ℚ)) ^ 2)).sum
            / ((lastN 10 (histAppend H p)).length : ℚ))
          else none) := by
  subst hH
  exact ⟨_, rfl, rfl, rfl⟩

theorem enrichSteps_state (now : ℤ) (sym : String) :
    ∀ (ps : List ℚ) (H : List ℚ),
      (enrichSteps now sym [(JVal.jstr sym, H)] ps).2
        = [(JVal.jstr sym, ps.foldl histAppend H)] := by
  intro ps
  induction ps with
  | nil =>
    intro H
    simp [enrichSteps]
  | cons p rest ih =>
    intro H
    obtain ⟨e, he, _, _⟩ :=
      enrichRecord_tradeRec_fields now [(JVal.jstr sym, H)] sym p H (by simp [lookupHist])
    have hins : insertHist [(JVal.jstr sym, H)] (JVal.jstr sym) (histAppend H p)
        = [(JVal.jstr sym, histAppend H p)] := by simp [insertHist]
    rw [hins] at he
    simp only [enrichSteps, he, List.foldl_cons]
    exact ih (histAppend H p)

theorem enrichSteps_length (now : ℤ) (sym : String) :
    ∀ (ps : List ℚ) (st : EState), (enrichSteps now sym st ps).1.length = ps.length := by
  intro ps
  induction ps with
  | nil =>
    intro st
    simp [enrichSteps]
  | cons p rest ih =>
    intro st
    cases he : enrichRecord now st (tradeRec sym p) with
    | none => simp [enrichSteps, he, ih]
    | some v =>
      obtain ⟨e, st2⟩ := v
      simp [enrichSteps, he, ih]

theorem enrichSteps_append (now : ℤ) (sym : String) :
    ∀ (l₁ l₂ : List ℚ) (st : EState),
      (enrichSteps now sym st (l₁ ++ l₂)).1
        = (enrichSteps now sym st l₁).1
          ++ (enrichSteps now sym (enrichSteps now sym st l₁).2 l₂).1 := by
  intro l₁
  induction l₁ with
  | nil =>
    intro l₂ st
    simp [enrichSteps]
  | cons p rest ih =>
    intro l₂ st
    cases he : enrichRecord now st (tradeRec sym p) with
    | none => simp [enrichSteps, he, ih]
    | some v =>
      obtain ⟨e, st2⟩ := v
      simp [enrichSteps, he, ih]

theorem enrichSteps_state_from_nil (now : ℤ) (sym : String) (q : ℚ) (rest : List ℚ) :
    (enrichSteps now sym [] (q :: rest)).2
      = [(JVal.jstr sym, (q :: rest).foldl histAppend [])] := by
  obtain ⟨e, he, _, _⟩ :=
    enrichRecord_tradeRec_fields now [] sym q [] (by simp [lookupHist])
  have hins : insertHist [] (JVal.jstr sym) (histAppend [] q)
      = [(JVal.jstr sym, histAppend [] q)] := rfl
  rw [hins] at he
  simp only [enrichSteps, he, List.foldl_cons]
  exact enrichSteps_state now sym rest (histAppend [] q)

/-- Claim C8: on a fresh enricher, after at least 10 `enrich_record` calls
for one symbol with strictly increasing positive prices, the record
returned by the 10th and by every later call carries `sma_10` equal to the
arithmetic mean of exactly the last 10 prices appended for that symbol, and
a volatility — the square root of the mean squared deviation from that mean
over those 10 prices — that is non-negative. The call in question is the
`(ps₁.length + 1)`-th one, for any earlier-call prefix `ps₁` of length at
least 9. -/
theorem c8_sma10_and_volatility (now : ℤ) (sym : String) (ps₁ : List ℚ) (p : ℚ)
    (ps₂ : List ℚ) (h9 : 9 ≤ ps₁.length)
    (hmono : (ps₁ ++ p :: ps₂).Chain' (· < ·))
    (hpos : ∀ q ∈ ps₁ ++ p :: ps₂, 0 < q) :
    ∃ e : ERec,
      (enrichSteps now sym [] (ps₁ ++ p :: ps₂)).1.get? ps₁.length = some (some e)
      ∧ e.sma_10 = some ((lastN 10 (ps₁ ++ [p])).sum / 10)
      ∧ ∃ v : ℚ,
          e.volatility_sq = some v
          ∧ v = ((lastN 10 (ps₁ ++ [p])).map
              (fun q => (q - (lastN 10 (ps₁ ++ [p])).sum / 10) ^ 2)).sum / 10
          ∧ 0 ≤ v ∧ 0 ≤ Real.sqrt (v : ℝ) := by
  have hmhs : maxHistorySize = 100 := rfl
  obtain ⟨q, rest, hps⟩ : ∃ q rest, ps₁ = q :: rest := by
    cases hc : ps₁ with
    | nil => rw [hc] at h9; simp at h9
    | cons q rest => exact ⟨q, rest, rfl⟩
  set H := lastN maxHistorySize ps₁ with hHdef
  have hstate : (enrichSteps now sym [] ps₁).2 = [(JVal.jstr sym, H)] := by
    rw [hps, enrichSteps_state_from_nil, ← hps, foldl_histAppend_nil]
  have hget : (enrichSteps now sym [] (ps₁ ++ p :: ps₂)).1.get? ps₁.length
      = (enrichSteps now sym [(JVal.jstr sym, H)] (p :: ps₂)).1.get? 0 := by
    rw [enrichSteps_append now sym ps₁ (p :: ps₂) [],
      List.get?_append_right (by rw [enrichSteps_length]),
      enrichSteps_length, Nat.sub_self, hstate]
  have hh2 : histAppend H p = lastN maxHistorySize (ps₁ ++ [p]) := histAppend_lastN ps₁ p
  have h10 : 10 ≤ (histAppend H p).length := by
    rw [hh2, lastN_length, List.length_append, hmhs]
    simp
    omega
  have hlast10 : lastN 10 (histAppend H p) = lastN 10 (ps₁ ++ [p]) := by
    rw [hh2]
    exact lastN_lastN 10 maxHistorySize _ (by rw [hmhs]; omega)
  have hlast10len : (lastN 10 (ps₁ ++ [p])).length = 10 := by
    rw [lastN_length, List.length_append]
    simp
    omega
  obtain ⟨E, hE, hsma, hvol⟩ :=
    enrichRecord_tradeRec_fields now [(JVal.jstr sym, H)] sym p H (by simp [lookupHist])
  have hins : insertHist [(JVal.jstr sym, H)] (JVal.jstr sym) (histAppend H p)
      = [(JVal.jstr sym, histAppend H p)] := by simp [insertHist]
  rw [hins] at hE
  have hhead : (enrichSteps now sym [(JVal.jstr sym, H)] (p :: ps₂)).1.get? 0
      = some (some E) := by
    simp only [enrichSteps, hE]
    rfl
  refine ⟨E, by rw [hget, hhead], ?_, ?_⟩
  · rw [hsma, if_pos h10, hlast10]
  · have hv : E.volatility_sq
        = some (((lastN 10 (ps₁ ++ [p])).map
            (fun q => (q - (lastN 10 (ps₁ ++ [p])).sum / 10) ^ 2)).sum / 10) := by
      rw [hvol, if_pos h10, hlast10, hlast10len]
      norm_num
    refine ⟨_, hv, rfl, ?_, Real.sqrt_nonneg _⟩
    apply div_nonneg _ (by norm_num)
    apply List.sum_nonneg
    intro x hx
    obtain ⟨w, hw, rfl⟩ := List.mem_map.mp hx
    exact sq_nonneg _

/-- Witness for claim C8: ten calls with prices 1..10; the 10th output
carries the stated moving average and a non-negative volatility. -/
theorem c8_witness :
    ∃ e : ERec,
      (enrichSteps 0 "btcusdt" []
          (([1, 2, 3, 4, 5, 6, 7, 8, 9] : List ℚ) ++ (10 : ℚ) :: [])).1.get?
          ([1, 2, 3, 4, 5, 6, 7, 8, 9] : List ℚ).length
        = some (some e)
      ∧ e.sma_10
        = some ((lastN 10 (([1, 2, 3, 4, 5, 6, 7, 8, 9] : List ℚ) ++ [10])).sum / 10)
      ∧ ∃ v : ℚ,
          e.volatility_sq = some v
          ∧ v = ((lastN 10 (([1, 2, 3, 4, 5, 6, 7, 8, 9] : List ℚ) ++ [10])).map
              (fun q => (q
                - (lastN 10 (([1, 2, 3, 4, 5, 6, 7, 8, 9] : List ℚ) ++ [10])).sum / 10) ^ 2)).sum
              / 10
          ∧ 0 ≤ v ∧ 0 ≤ Real.sqrt (v : ℝ) :=
  c8_sma10_and_volatility 0 "btcusdt" [1, 2, 3, 4, 5, 6, 7, 8, 9] 10 []
    (by norm_num) (by norm_num [List.chain'_cons]) (by norm_num)

end CryptoSpec
